import Mathlib

/-!
Verification of the derived-state consistency engine of a messaging backend
(Django app `messaging` plus the `chats` rate-limiting middleware), shallowly
embedded: rows are list elements, the ORM write pipeline (pre_save signal,
row write, post_save signal) is explicit state passing, and the sliding-window
rate limiter is a pure step function on its per-key timestamp list.
-/

namespace Messaging

/-- A `Message` row (`messaging/models.py`): sender/receiver are actor ids,
`parent` is the optional `parent_message` id forming the reply tree. -/
structure Msg where
  id : Nat
  sender : Nat
  receiver : Nat
  content : String
  timestamp : Nat
  edited : Bool
  read : Bool
  parent : Option Nat
deriving Repr, DecidableEq

/-- A `Notification` row (`messaging/models.py`): `user` is the notified
actor, `message` the triggering message id. -/
structure Notif where
  id : Nat
  user : Nat
  message : Nat
  is_read : Bool
  created_at : Nat
deriving Repr, DecidableEq

/-- A `MessageHistory` row (`messaging/models.py`): `edited_by` is nullable
(`on_delete=SET_NULL`). -/
structure Hist where
  id : Nat
  message : Nat
  old_content : String
  edited_at : Nat
  edited_by : Option Nat
deriving Repr, DecidableEq

/-- The relational store: the three tables plus fresh-id counters for the
rows the signal handlers create. -/
structure Store where
  messages : List Msg
  notifications : List Notif
  histories : List Hist
  nextNotifId : Nat
  nextHistId : Nat
deriving Repr, DecidableEq

/-- Error taxonomy of the spec (§7). -/
inductive Err where
  | InvalidReference
  | NotFound
  | Forbidden
  | RateLimited
  | DerivedWriteFailed
deriving Repr, DecidableEq

/-- Handler `create_notification_on_message` (`messaging/signals.py`, post_save):
only when `created` is true, insert one Notification for the receiver with
`is_read=False`. -/
def create_notification_on_message (s : Store) (inst : Msg) (created : Bool)
    (now : Nat) : Store :=
  if created then
    { s with
      notifications :=
        s.notifications ++ [⟨s.nextNotifId, inst.receiver, inst.id, false, now⟩],
      nextNotifId := s.nextNotifId + 1 }
  else s

/-- Handler `log_message_edit` (`messaging/signals.py`, pre_save): if the inst
already exists in the store and its stored content differs from the incoming
content, append a MessageHistory row holding the old content with
`edited_by = inst.sender`, and set `edited := true` on the inst being
written. Returns the (possibly updated) store and inst. -/
def log_message_edit (s : Store) (inst : Msg) (now : Nat) : Store × Msg :=
  match s.messages.find? (fun m => m.id == inst.id) with
  | some old =>
    if old.content ≠ inst.content then
      ({ s with
         histories :=
           s.histories ++ [⟨s.nextHistId, inst.id, old.content, now, some inst.sender⟩],
         nextHistId := s.nextHistId + 1 },
       { inst with edited := true })
    else (s, inst)
  | none => (s, inst)

/-- The `Message.objects.create` write pipeline: pre_save fires with no primary
key yet (so `log_message_edit` is a no-op), the row is inserted, then
post_save fires with `created=True`. `derivedOk` is the outcome of the
Notification insert attempted by the post_save handler.

Modelled from the spec: the transactional wrapper (§4.2 — both rules run
"transactionally with the triggering Message write", so a failed derived
write aborts the whole save) lives in the project's transaction
configuration, outside the `messaging` app sources; the handlers themselves
propagate exceptions (no catch-and-continue path). -/
def message_save_create (s : Store) (inst : Msg) (derivedOk : Bool)
    (now : Nat) : Except Err Store :=
  if derivedOk then
    let s1 := { s with messages := s.messages ++ [inst] }
    Except.ok (create_notification_on_message s1 inst true now)
  else Except.error Err.DerivedWriteFailed

/-- The `msg.content = newContent; msg.save()` write pipeline for an existing
row: pre_save runs `log_message_edit` on the inst (stored row with the
incoming content), the row is written back, then post_save fires with
`created=False` (so no Notification). `derivedOk` is the outcome of the
MessageHistory insert, consulted only when that insert is attempted.

Modelled from the spec: the transactional wrapper as in
`message_save_create`. -/
def message_save_update (s : Store) (mid : Nat) (newContent : String)
    (derivedOk : Bool) (now : Nat) : Except Err Store :=
  match s.messages.find? (fun m => m.id == mid) with
  | none => Except.error Err.NotFound
  | some m =>
    let inst := { m with content := newContent }
    if m.content ≠ newContent ∧ derivedOk = false then
      Except.error Err.DerivedWriteFailed
    else
      let (s1, inst1) := log_message_edit s inst now
      let s2 :=
        { s1 with messages := s1.messages.map (fun x => if x.id == mid then inst1 else x) }
      Except.ok (create_notification_on_message s2 inst1 false now)

/-- Look up the parent row of a message through its `parent_message` id. -/
def parentOf (s : Store) (m : Msg) : Option Msg :=
  m.parent.bind (fun pid => s.messages.find? (fun x => x.id == pid))

/-- Membership test of the root-level query in `Message.get_thread`
(`messaging/models.py`): `Q(id=self.id) | Q(parent_message=self) |
Q(parent_message__parent_message=self)` — the row itself, its direct
replies, and replies of replies (two levels, not unbounded depth). -/
def inTwoLevels (s : Store) (root : Msg) (m : Msg) : Bool :=
  m.id == root.id || m.parent == some root.id ||
    (parentOf s m).bind (fun p => p.parent) == some root.id

/-- Insert a message into a list sorted ascending by `timestamp`. -/
def insertByTs (m : Msg) : List Msg → List Msg
  | [] => [m]
  | x :: xs => if m.timestamp < x.timestamp then m :: x :: xs else x :: insertByTs m xs

/-- Ordering per `order_by('timestamp')`: sort ascending by creation timestamp. -/
def sortByTs : List Msg → List Msg
  | [] => []
  | x :: xs => insertByTs x (sortByTs xs)

/-- The filter-and-order query issued at the root in `Message.get_thread`. -/
def threadQuery (s : Store) (root : Msg) : List Msg :=
  sortByTs (s.messages.filter (fun m => inTwoLevels s root m))

/-- Resolve to the thread's root by following `parent_message` upward.
The recursion is fuelled: the source's recursion terminates because parent
chains are acyclic by construction (a message can only reference an
already-persisted parent). -/
def rootOf (s : Store) : Nat → Msg → Msg
  | 0, m => m
  | fuel + 1, m =>
    match parentOf s m with
    | some p => rootOf s fuel p
    | none => m

/-- Method `Message.get_thread` (`messaging/models.py`): if this message has a
parent, delegate to the parent's thread; at the root, run the two-level
query ordered by timestamp. Fuelled as in `rootOf`. -/
def get_thread (s : Store) : Nat → Msg → List Msg
  | 0, m => threadQuery s m
  | fuel + 1, m =>
    match parentOf s m with
    | some p => get_thread s fuel p
    | none => threadQuery s m

/-- Transitive closure of the reply relation above a set of doomed message
ids: `parent_message` has `on_delete=CASCADE`, so deleting a message deletes
its replies at every depth. Fuelled iteration to a fixed point. -/
def closeDead (msgs : List Msg) (deadIds : List Nat) : Nat → List Nat
  | 0 => deadIds
  | fuel + 1 =>
    let more := msgs.filter (fun m =>
      match m.parent with
      | some p => deadIds.contains p && !(deadIds.contains m.id)
      | none => false)
    if more.isEmpty then deadIds
    else closeDead msgs (deadIds ++ more.map (fun m => m.id)) fuel

/-- Deletion `Message.objects.filter(p).delete()`: delete every message satisfying
`p`, together with the storage-level cascade — replies at every depth
(`parent_message` CASCADE) and the Notification / MessageHistory rows of
every deleted message (their `message` foreign keys are CASCADE). -/
def cascadeDeleteMessages (s : Store) (p : Msg → Bool) : Store :=
  let deadIds := closeDead s.messages ((s.messages.filter p).map (fun m => m.id))
      s.messages.length
  { s with
    messages := s.messages.filter (fun m => !(deadIds.contains m.id)),
    notifications := s.notifications.filter (fun n => !(deadIds.contains n.message)),
    histories := s.histories.filter (fun h => !(deadIds.contains h.message)) }

/-- Handler `cleanup_user_data` (`messaging/signals.py`, pre_delete on User): delete
messages where the removed actor `u` is sender, then those where `u` is
receiver, then Notifications whose `user` is `u`, then — explicitly —
MessageHistory rows whose `edited_by` is `u`. -/
def cleanup_user_data (s : Store) (u : Nat) : Store :=
  let s1 := cascadeDeleteMessages s (fun m => m.sender == u)
  let s2 := cascadeDeleteMessages s1 (fun m => m.receiver == u)
  let s3 := { s2 with notifications := s2.notifications.filter (fun n => !(n.user == u)) }
  { s3 with histories := s3.histories.filter (fun h => !(h.edited_by == some u)) }

/-- Removal `user.delete()`: the pre_delete signal runs `cleanup_user_data`, then
the storage layer applies the declared foreign-key rules for the removed
actor — CASCADE on `Message.sender`/`Message.receiver`, CASCADE on
`Notification.user`, SET_NULL on `MessageHistory.edited_by`
(`messaging/models.py`). -/
def delete_user (s : Store) (u : Nat) : Store :=
  let s1 := cleanup_user_data s u
  let s2 := cascadeDeleteMessages s1 (fun m => m.sender == u || m.receiver == u)
  let s3 := { s2 with notifications := s2.notifications.filter (fun n => !(n.user == u)) }
  { s3 with
    histories := s3.histories.map (fun h =>
      if h.edited_by == some u then { h with edited_by := none } else h) }

/-- Method `Message.mark_as_read` (`messaging/models.py`) as a store operation:
fetch the row; if unread, save the instance with `read := true` through the
write pipeline — pre_save (`log_message_edit`, a no-op because the fetched
content equals the stored content) then a write restricted to the `read`
column (`update_fields=['read']`); post_save fires with `created=False`. -/
def mark_as_read (s : Store) (mid : Nat) (now : Nat) : Store :=
  match s.messages.find? (fun m => m.id == mid) with
  | none => s
  | some m =>
    if m.read then s
    else
      let inst := { m with read := true }
      let (s1, inst1) := log_message_edit s inst now
      let s2 :=
        { s1 with
          messages := s1.messages.map (fun x =>
            if x.id == mid then { x with read := inst1.read } else x) }
      create_notification_on_message s2 inst1 false now

/-- View `mark_message_read` (`messaging/views.py`):
`get_object_or_404(Message, id=message_id, receiver=request.user)` — the
lookup itself is filtered by the receiver, so a missing id and a non-receiver
caller both surface as NotFound — then `message.mark_as_read()`. -/
def mark_message_read (s : Store) (actor : Nat) (mid : Nat) (now : Nat) :
    Except Err Store :=
  match s.messages.find? (fun m => m.id == mid && m.receiver == actor) with
  | none => Except.error Err.NotFound
  | some _ => Except.ok (mark_as_read s mid now)

end Messaging

namespace RateGate

/-- Limit of `OffensiveLanguageMiddleware` (`chats/middleware.py`): 5 requests
per 60-second window. -/
def max_requests : Nat := 5

/-- The window length in seconds. -/
def time_window : Nat := 60

/-- Outcome of one request at the gate. -/
inductive RLResult where
  | admitted
  | rejected (retryAfter : Nat)
deriving Repr, DecidableEq

/-- One POST request through `OffensiveLanguageMiddleware.__call__` for one
client key: drop timestamps outside the window (`now - t < time_window`),
reject with retry-after = window length if the rest already reach the limit,
otherwise admit and append `now`. Returns the outcome and the new list. -/
def rl_step (times : List Nat) (now : Nat) : RLResult × List Nat :=
  let kept := times.filter (fun t => now - t < time_window)
  if max_requests ≤ kept.length then (RLResult.rejected time_window, kept)
  else (RLResult.admitted, kept ++ [now])

/-- Run a sequence of request timestamps through the gate, collecting the
outcome of each. -/
def rl_run (times : List Nat) : List Nat → List RLResult × List Nat
  | [] => ([], times)
  | now :: rest =>
    let (r, times1) := rl_step times now
    let (rs, times2) := rl_run times1 rest
    (r :: rs, times2)

end RateGate

namespace Messaging

/-! Concrete rows and stores used to instantiate the theorems below. -/

/-- Root message of the example thread: actor 1 to actor 2. -/
def exM1 : Msg := ⟨1, 1, 2, "a", 10, false, false, none⟩

/-- Depth-1 reply to `exM1`. -/
def exM2 : Msg := ⟨2, 2, 1, "b", 20, false, false, some 1⟩

/-- Depth-2 reply. -/
def exM3 : Msg := ⟨3, 1, 2, "c", 30, false, false, some 2⟩

/-- Depth-3 reply. -/
def exM4 : Msg := ⟨4, 2, 1, "d", 40, false, false, some 3⟩

/-- Store holding a four-message chain `exM1 ← exM2 ← exM3 ← exM4`. -/
def exThread : Store := ⟨[exM1, exM2, exM3, exM4], [], [], 0, 0⟩

/-- Store where actor 1 sent message 1 to actor 2 and then edited it, so a
notification for actor 2 and a history row authored by actor 1 exist. -/
def exEdited : Store :=
  ⟨[⟨1, 1, 2, "hi", 10, true, false, none⟩],
   [⟨0, 2, 1, false, 10⟩],
   [⟨0, 1, "old", 11, some 1⟩], 1, 1⟩

/-- The store produced by updating message 1 of `exEdited` to `"hi2"` at
time 12. -/
def exEditedUpd : Store :=
  ⟨[⟨1, 1, 2, "hi2", 10, true, false, none⟩],
   [⟨0, 2, 1, false, 10⟩],
   [⟨0, 1, "old", 11, some 1⟩, ⟨1, 1, "hi", 12, some 1⟩], 1, 2⟩

/-- A fresh message used for the creation examples. -/
def exNew : Msg := ⟨5, 1, 2, "e", 50, false, false, none⟩

/-- The store produced by creating `exNew` in `exEdited` at time 50. -/
def exCreated : Store :=
  ⟨[⟨1, 1, 2, "hi", 10, true, false, none⟩, exNew],
   [⟨0, 2, 1, false, 10⟩, ⟨1, 2, 5, false, 50⟩],
   [⟨0, 1, "old", 11, some 1⟩], 2, 1⟩

end Messaging

namespace Messaging

/-- Mapping a function that fixes every element of a list is the identity. -/
theorem map_id_of_mem {α : Type} (l : List α) (f : α → α) (h : ∀ a ∈ l, f a = a) :
    l.map f = l := by
  induction l with
  | nil => rfl
  | cons x xs ih =>
    simp only [List.map_cons, h x (by simp), ih fun a ha => h a (by simp [ha])]

/-- Insertion `insertByTs` permutes the element onto the list. -/
theorem insertByTs_perm (m : Msg) (l : List Msg) : (insertByTs m l).Perm (m :: l) := by
  induction l with
  | nil => simp [insertByTs]
  | cons x xs ih =>
    by_cases h : m.timestamp < x.timestamp
    · simp [insertByTs, h]
    · simp only [insertByTs, if_neg h]
      exact (ih.cons x).trans (List.Perm.swap m x xs)

/-- Sorting `sortByTs` is a permutation of its input. -/
theorem sortByTs_perm (l : List Msg) : (sortByTs l).Perm l := by
  induction l with
  | nil => simp [sortByTs]
  | cons x xs ih => exact (insertByTs_perm x (sortByTs xs)).trans (ih.cons x)

/-- Insertion `insertByTs` preserves ascending timestamp order. -/
theorem insertByTs_sorted (m : Msg) (l : List Msg)
    (h : l.Sorted (fun a b => a.timestamp ≤ b.timestamp)) :
    (insertByTs m l).Sorted (fun a b => a.timestamp ≤ b.timestamp) := by
  induction l with
  | nil => simp [insertByTs]
  | cons x xs ih =>
    rw [List.sorted_cons] at h
    by_cases hlt : m.timestamp < x.timestamp
    · rw [insertByTs, if_pos hlt, List.sorted_cons]
      refine ⟨?_, List.sorted_cons.mpr h⟩
      intro b hb
      rcases List.mem_cons.mp hb with hb | hb
      · exact hb ▸ Nat.le_of_lt hlt
      · exact Nat.le_trans (Nat.le_of_lt hlt) (h.1 b hb)
    · rw [insertByTs, if_neg hlt, List.sorted_cons]
      refine ⟨?_, ih h.2⟩
      intro b hb
      rcases List.mem_cons.mp ((insertByTs_perm m xs).mem_iff.mp hb) with hb | hb
      · exact hb ▸ Nat.le_of_not_lt hlt
      · exact h.1 b hb

/-- The ordering clause of the thread query: results ascend by timestamp. -/
theorem sortByTs_sorted (l : List Msg) :
    (sortByTs l).Sorted (fun a b => a.timestamp ≤ b.timestamp) := by
  induction l with
  | nil => simp [sortByTs]
  | cons x xs ih => exact insertByTs_sorted x (sortByTs xs) ih

/-- Reconstruction `get_thread` always delegates to the two-level query at the resolved
root of its seed. -/
theorem get_thread_eq_rootQuery (s : Store) :
    ∀ fuel m, get_thread s fuel m = threadQuery s (rootOf s fuel m) := by
  intro fuel
  induction fuel with
  | zero => intro m; rfl
  | succ n ih =>
    intro m
    cases h : parentOf s m with
    | some p => simp only [get_thread, rootOf, h, ih p]
    | none => simp only [get_thread, rootOf, h]

/-- Claim C1: after an actor is removed, the spec requires every MessageHistory
row they authored to survive with `edited_by` null; the code instead deletes
such rows — `cleanup_user_data` removes them explicitly, and the deletion of
the actor's messages cascades over their history anyway. On the concrete
store `exEdited` (actor 1 authored history row 0), removing actor 1 leaves
no history row at all. -/
theorem C1_history_rows_deleted :
    (exEdited.histories.filter (fun h => h.edited_by == some 1)).length = 1 ∧
    (delete_user exEdited 1).histories = [] ∧
    (cleanup_user_data exEdited 1).histories = [] := by decide

/-- Claim C2 counterexample: in the chain `exM1 ← exM2 ← exM3 ← exM4` the
depth-3 reply `exM4` is a transitive descendant of the root, yet thread
reconstruction misses it from every seed — the query collects only two
levels of nesting, not unbounded depth as the claim states. -/
theorem C2_deep_reply_missing :
    exM4 ∈ exThread.messages ∧
    exM4.parent = some exM3.id ∧ exM3.parent = some exM2.id ∧
    exM2.parent = some exM1.id ∧ exM1.parent = none ∧
    rootOf exThread 10 exM4 = exM1 ∧
    exM4 ∉ get_thread exThread 10 exM1 ∧
    exM4 ∉ get_thread exThread 10 exM4 := by decide

/-- Claim C2 (amended): reconstructing a thread from any two seeds that resolve
to the same root yields the same list; that list ascends by creation
timestamp and contains exactly the root, its direct replies, and replies of
replies (two levels of nesting — not descendants at unbounded depth). -/
theorem C2_thread_same_from_any_seed (s : Store) (f1 f2 : Nat) (a b : Msg)
    (h : rootOf s f1 a = rootOf s f2 b) :
    get_thread s f1 a = get_thread s f2 b ∧
    List.Sorted (fun x y => x.timestamp ≤ y.timestamp) (get_thread s f1 a) ∧
    (∀ x, x ∈ get_thread s f1 a ↔
      x ∈ s.messages ∧ inTwoLevels s (rootOf s f1 a) x = true) := by
  refine ⟨?_, ?_, ?_⟩
  · rw [get_thread_eq_rootQuery, get_thread_eq_rootQuery, h]
  · rw [get_thread_eq_rootQuery]
    exact sortByTs_sorted _
  · intro x
    rw [get_thread_eq_rootQuery, threadQuery, (sortByTs_perm _).mem_iff,
      List.mem_filter]

/-- Concrete instantiation of `C2_thread_same_from_any_seed` at the seeds
`exM4` and `exM2` of the example chain. -/
theorem C2_thread_same_from_any_seed_witness :
    rootOf exThread 10 exM4 = rootOf exThread 10 exM2 ∧
    get_thread exThread 10 exM4 = get_thread exThread 10 exM2 :=
  ⟨by decide,
   (C2_thread_same_from_any_seed exThread 10 10 exM4 exM2 (by decide)).1⟩

/-- The pre_save handler touches only the history table: notifications are
unchanged. -/
theorem log_message_edit_notifications (s : Store) (inst : Msg) (now : Nat) :
    (log_message_edit s inst now).1.notifications = s.notifications := by
  unfold log_message_edit
  cases h : s.messages.find? (fun m => m.id == inst.id) with
  | none => rfl
  | some old => by_cases hc : old.content = inst.content <;> simp [hc]

/-- The pre_save handler does not write the message table. -/
theorem log_message_edit_messages (s : Store) (inst : Msg) (now : Nat) :
    (log_message_edit s inst now).1.messages = s.messages := by
  unfold log_message_edit
  cases h : s.messages.find? (fun m => m.id == inst.id) with
  | none => rfl
  | some old => by_cases hc : old.content = inst.content <;> simp [hc]

/-- Replacing every row of a given id by a fresh row with that id moves
`find?` for that id onto the fresh row. -/
theorem find?_replace (l : List Msg) (mid : Nat) (v : Msg)
    (hv : (v.id == mid) = true) :
    ∀ m, l.find? (fun x => x.id == mid) = some m →
      (l.map (fun x => if x.id == mid then v else x)).find?
        (fun x => x.id == mid) = some v := by
  induction l with
  | nil => intro m h; simp at h
  | cons x xs ih =>
    intro m h
    by_cases hx : (x.id == mid) = true
    · have hx' : x.id = mid := by simpa using hx
      simp [List.find?_cons, hx', hv]
    · rw [List.find?_cons_of_neg _ (by simp [hx])] at h
      simp only [List.map_cons, if_neg (by simp [hx] : ¬ (x.id == mid) = true)]
      rw [List.find?_cons_of_neg _ (by simp [hx])]
      exact ih m h

/-- Claim C3: all-or-nothing — when the derived-state write fails, the create
and the (content-changing) update both surface the failure instead of
committing the message write, and a successful create always carries its
notification; the `Except` result means a failed save publishes no state at
all. (Transactional abortion is spec-modelled, see `message_save_create`.) -/
theorem C3_derived_write_failure_aborts_save :
    (∀ (s : Store) (inst : Msg) (now : Nat),
      message_save_create s inst false now = Except.error Err.DerivedWriteFailed) ∧
    (∀ (s : Store) (mid : Nat) (c : String) (now : Nat) (m : Msg),
      s.messages.find? (fun x => x.id == mid) = some m → m.content ≠ c →
      message_save_update s mid c false now = Except.error Err.DerivedWriteFailed) ∧
    (∀ (s : Store) (inst : Msg) (now : Nat) (s' : Store),
      message_save_create s inst true now = Except.ok s' →
      inst ∈ s'.messages ∧
      ∃ n ∈ s'.notifications,
        n.message = inst.id ∧ n.user = inst.receiver ∧ n.is_read = false) := by
  refine ⟨fun s inst now => rfl, ?_, ?_⟩
  · intro s mid c now m hfind hne
    simp only [message_save_update, hfind]
    rw [if_pos ⟨hne, trivial⟩]
  · intro s inst now s' hok
    simp [message_save_create, create_notification_on_message] at hok
    subst hok
    refine ⟨by simp, ⟨s.nextNotifId, inst.receiver, inst.id, false, now⟩, by simp, rfl, rfl, rfl⟩

/-- Concrete instantiation of `C3_derived_write_failure_aborts_save`. -/
theorem C3_derived_write_failure_aborts_save_witness :
    message_save_create exEdited exNew false 50 = Except.error Err.DerivedWriteFailed ∧
    (("hi" : String) ≠ "hi2") ∧
    message_save_update exEdited 1 "hi2" false 12 = Except.error Err.DerivedWriteFailed :=
  ⟨C3_derived_write_failure_aborts_save.1 exEdited exNew 50, by decide,
   C3_derived_write_failure_aborts_save.2.1 exEdited 1 "hi2" 12
     ⟨1, 1, 2, "hi", 10, true, false, none⟩ (by decide) (by decide)⟩

/-- Claim C4: a successful create leaves exactly one Notification for the new
message (given its id is fresh), addressed to the receiver and unread; a
successful update of an existing message leaves the notification table
untouched. -/
theorem C4_exactly_one_notification_on_create :
    (∀ (s : Store) (inst : Msg) (now : Nat) (s' : Store),
      s.notifications.countP (fun n => n.message == inst.id) = 0 →
      message_save_create s inst true now = Except.ok s' →
      s'.notifications.countP (fun n => n.message == inst.id) = 1 ∧
      ∀ n ∈ s'.notifications, n.message = inst.id →
        n.user = inst.receiver ∧ n.is_read = false) ∧
    (∀ (s : Store) (mid : Nat) (c : String) (dOk : Bool) (now : Nat) (s' : Store),
      message_save_update s mid c dOk now = Except.ok s' →
      s'.notifications = s.notifications) := by
  constructor
  · intro s inst now s' hfresh hok
    simp [message_save_create, create_notification_on_message] at hok
    subst hok
    constructor
    · rw [List.countP_append, hfresh]
      simp [List.countP_cons]
    · intro n hn hmsg
      rcases List.mem_append.mp hn with hn | hn
      · exact absurd (by simpa using hmsg)
          (by simpa using List.countP_eq_zero.mp hfresh n hn)
      · simp at hn
        subst hn
        exact ⟨rfl, rfl⟩
  · intro s mid c dOk now s' hok
    unfold message_save_update at hok
    split at hok
    · exact absurd hok (by simp)
    · rename_i m hfind
      split at hok
      · exact absurd hok (by simp)
      · rcases hlog : log_message_edit s { m with content := c } now with ⟨s1, inst1⟩
        simp only [hlog, create_notification_on_message, if_neg (by simp : ¬False),
          Except.ok.injEq] at hok
        subst hok
        have hn := log_message_edit_notifications s { m with content := c } now
        rw [hlog] at hn
        exact hn

/-- Concrete instantiation of `C4_exactly_one_notification_on_create`:
creating `exNew` in `exEdited`. -/
theorem C4_exactly_one_notification_on_create_witness :
    exEdited.notifications.countP (fun n => n.message == exNew.id) = 0 ∧
    message_save_create exEdited exNew true 50 = Except.ok exCreated ∧
    exCreated.notifications.countP (fun n => n.message == exNew.id) = 1 :=
  ⟨by decide, by rfl,
   (C4_exactly_one_notification_on_create.1 exEdited exNew 50 exCreated
      (by decide) (by rfl)).1⟩

/-- Closed form of a content-changing update: one history row holding the
old content is appended, and every row of the message's id gets the new
content with `edited := true`. -/
theorem message_save_update_changed (s : Store) (mid : Nat) (c : String)
    (now : Nat) (m : Msg)
    (hfind : s.messages.find? (fun x => x.id == mid) = some m)
    (hne : m.content ≠ c) :
    message_save_update s mid c true now = Except.ok
      { messages := s.messages.map (fun x =>
          if x.id == mid then { m with content := c, edited := true } else x),
        notifications := s.notifications,
        histories := s.histories ++ [⟨s.nextHistId, m.id, m.content, now, some m.sender⟩],
        nextNotifId := s.nextNotifId,
        nextHistId := s.nextHistId + 1 } := by
  have hmid : m.id = mid := by simpa using List.find?_some hfind
  have hfind2 : s.messages.find? (fun x => x.id == m.id) = some m := by
    rw [hmid]; exact hfind
  simp only [message_save_update, hfind, log_message_edit]
  simp [hfind2, hne, create_notification_on_message]

/-- Closed form of a content-preserving update: no history row, no
notification, the message row rewritten to itself. -/
theorem message_save_update_unchanged (s : Store) (mid : Nat) (c : String)
    (now : Nat) (m : Msg)
    (hfind : s.messages.find? (fun x => x.id == mid) = some m)
    (heq : m.content = c) :
    message_save_update s mid c true now = Except.ok
      { messages := s.messages.map (fun x => if x.id == mid then m else x),
        notifications := s.notifications,
        histories := s.histories,
        nextNotifId := s.nextNotifId,
        nextHistId := s.nextHistId } := by
  subst heq
  have hmid : m.id = mid := by simpa using List.find?_some hfind
  have hfind2 : s.messages.find? (fun x => x.id == m.id) = some m := by
    rw [hmid]; exact hfind
  simp only [message_save_update, hfind, log_message_edit]
  simp [hfind2, create_notification_on_message]

/-- Claim C5: an update whose content differs from the stored value appends
exactly one history row — its `old_content` is the pre-update stored
content, its editor the sender — and flips `edited` to true; re-applying
the same content afterwards appends no further history row. -/
theorem C5_history_appended_on_change (s : Store) (mid : Nat) (c : String)
    (now : Nat) (s' : Store) (m : Msg)
    (hfind : s.messages.find? (fun x => x.id == mid) = some m)
    (hne : m.content ≠ c)
    (hok : message_save_update s mid c true now = Except.ok s') :
    s'.histories = s.histories ++ [⟨s.nextHistId, m.id, m.content, now, some m.sender⟩] ∧
    s'.messages.find? (fun x => x.id == mid) = some { m with content := c, edited := true } ∧
    (∀ (now2 : Nat) (s'' : Store),
      message_save_update s' mid c true now2 = Except.ok s'' →
      s''.histories = s'.histories) := by
  have hmid : m.id = mid := by simpa using List.find?_some hfind
  rw [message_save_update_changed s mid c now m hfind hne, Except.ok.injEq] at hok
  subst hok
  refine ⟨rfl, ?_, ?_⟩
  · exact find?_replace s.messages mid _ (by simp [hmid]) m hfind
  · intro now2 s'' hok2
    have hfind' := find?_replace s.messages mid
      ({ m with content := c, edited := true } : Msg) (by simp [hmid]) m hfind
    rw [message_save_update_unchanged _ mid c now2 _ hfind' rfl,
      Except.ok.injEq] at hok2
    subst hok2
    rfl

/-- Concrete instantiation of `C5_history_appended_on_change`: editing
message 1 of `exEdited` from `"hi"` to `"hi2"`. -/
theorem C5_history_appended_on_change_witness :
    message_save_update exEdited 1 "hi2" true 12 = Except.ok exEditedUpd ∧
    exEditedUpd.histories = exEdited.histories ++ [⟨1, 1, "hi", 12, some 1⟩] :=
  ⟨by rfl,
   (C5_history_appended_on_change exEdited 1 "hi2" 12 exEditedUpd
      ⟨1, 1, 2, "hi", 10, true, false, none⟩ (by rfl) (by decide) (by rfl)).1⟩

/-- Claim C6: an update whose content equals the stored value appends no
history row, creates no notification, and leaves the message row — its
`edited` flag included — unchanged. -/
theorem C6_no_history_on_unchanged_update (s : Store) (mid : Nat) (c : String)
    (now : Nat) (s' : Store) (m : Msg)
    (hfind : s.messages.find? (fun x => x.id == mid) = some m)
    (heq : m.content = c)
    (hok : message_save_update s mid c true now = Except.ok s') :
    s'.histories = s.histories ∧ s'.notifications = s.notifications ∧
    s'.messages.find? (fun x => x.id == mid) = some m := by
  have hmid : m.id = mid := by simpa using List.find?_some hfind
  rw [message_save_update_unchanged s mid c now m hfind heq, Except.ok.injEq] at hok
  subst hok
  exact ⟨rfl, rfl, find?_replace s.messages mid m (by simp [hmid]) m hfind⟩

/-- Concrete instantiation of `C6_no_history_on_unchanged_update`:
re-saving message 1 of `exEdited` with its current content `"hi"`. -/
theorem C6_no_history_on_unchanged_update_witness :
    message_save_update exEdited 1 "hi" true 12 = Except.ok exEdited ∧
    exEdited.messages.find? (fun x => x.id == 1) =
      some ⟨1, 1, 2, "hi", 10, true, false, none⟩ :=
  ⟨by rfl,
   (C6_no_history_on_unchanged_update exEdited 1 "hi" 12 exEdited
      ⟨1, 1, 2, "hi", 10, true, false, none⟩ (by rfl) (by rfl) (by rfl)).2.2⟩

end Messaging

namespace RateGate

/-- Claim C7: with limit 5 per 60-second window — a request arriving while 5
admitted timestamps are still inside the window is rejected with a reported
retry-after of 60 ≤ 60 seconds; timestamps at least 60 seconds old are
discarded, so they no longer count; and on the concrete trace the requests
at t=0..4 are admitted, t=5 is rejected, t=61 is admitted. -/
theorem C7_sliding_window_rate_gate :
    (∀ (times : List Nat) (now : Nat),
      max_requests ≤ (times.filter (fun t => now - t < time_window)).length →
      (rl_step times now).1 = RLResult.rejected time_window ∧ time_window ≤ 60) ∧
    (∀ (times : List Nat) (now : Nat),
      (∀ t ∈ times, t + time_window ≤ now) →
      (rl_step times now).1 = RLResult.admitted) ∧
    (rl_run [] [0, 1, 2, 3, 4, 5]).1 =
      [RLResult.admitted, RLResult.admitted, RLResult.admitted, RLResult.admitted,
       RLResult.admitted, RLResult.rejected 60] ∧
    (rl_step (rl_run [] [0, 1, 2, 3, 4, 5]).2 61).1 = RLResult.admitted := by
  refine ⟨?_, ?_, by decide, by decide⟩
  · intro times now h
    simp only [rl_step]
    rw [if_pos h]
    exact ⟨rfl, by decide⟩
  · intro times now h
    have hnil : times.filter (fun t => now - t < time_window) = [] := by
      apply List.filter_eq_nil_iff.mpr
      intro t ht
      have := h t ht
      simp only [time_window] at this ⊢
      simp only [decide_eq_true_eq]
      omega
    simp only [rl_step, hnil]
    rw [if_neg (by simp [max_requests])]

/-- Concrete instantiation of `C7_sliding_window_rate_gate`: five admitted
timestamps 0..4 reject a request at t=5; at t=65 all of them have aged out
and the request is admitted. -/
theorem C7_sliding_window_rate_gate_witness :
    max_requests ≤ (([0, 1, 2, 3, 4] : List Nat).filter
      (fun t => 5 - t < time_window)).length ∧
    (rl_step [0, 1, 2, 3, 4] 5).1 = RLResult.rejected time_window ∧
    (rl_step [0, 1, 2, 3, 4] 65).1 = RLResult.admitted :=
  ⟨by decide,
   (C7_sliding_window_rate_gate.1 [0, 1, 2, 3, 4] 5 (by decide)).1,
   C7_sliding_window_rate_gate.2.1 [0, 1, 2, 3, 4] 65 (by decide)⟩

end RateGate

namespace Messaging

/-- The doomed-id set only grows during cascade closure. -/
theorem mem_closeDead (msgs : List Msg) (fuel : Nat) :
    ∀ (deadIds : List Nat) (x : Nat), x ∈ deadIds → x ∈ closeDead msgs deadIds fuel := by
  induction fuel with
  | zero => intro d x h; exact h
  | succ n ih =>
    intro d x h
    simp only [closeDead]
    split
    · exact h
    · exact ih _ x (List.mem_append_left _ h)

/-- Cascade closure of the empty doomed set is empty. -/
theorem closeDead_nil (msgs : List Msg) (fuel : Nat) :
    closeDead msgs [] fuel = [] := by
  cases fuel with
  | zero => rfl
  | succ n =>
    simp only [closeDead]
    have hf : (msgs.filter fun m =>
        match m.parent with
        | some p => ([] : List Nat).contains p && !(([] : List Nat).contains m.id)
        | none => false) = [] := by
      apply List.filter_eq_nil_iff.mpr
      intro m _
      cases m.parent <;> simp
    rw [hf]
    rfl

/-- A cascading delete whose predicate matches nothing changes nothing. -/
theorem cascadeDeleteMessages_id (s : Store) (p : Msg → Bool)
    (h : ∀ m ∈ s.messages, p m = false) : cascadeDeleteMessages s p = s := by
  have hdead : s.messages.filter p = [] :=
    List.filter_eq_nil_iff.mpr (fun m hm => by simp [h m hm])
  simp [cascadeDeleteMessages, hdead, closeDead_nil, List.filter_eq_self]

/-- Survivors of a cascading delete were rows of the original store. -/
theorem mem_of_mem_cascade (s : Store) (p : Msg → Bool) (m : Msg)
    (h : m ∈ (cascadeDeleteMessages s p).messages) : m ∈ s.messages := by
  simp only [cascadeDeleteMessages] at h
  exact (List.mem_filter.mp h).1

/-- No survivor of a cascading delete satisfies its predicate. -/
theorem cascade_survivor_not_p (s : Store) (p : Msg → Bool) (m : Msg)
    (h : m ∈ (cascadeDeleteMessages s p).messages) : p m = false := by
  simp only [cascadeDeleteMessages] at h
  obtain ⟨hm, hcontains⟩ := List.mem_filter.mp h
  by_contra hp
  have hp' : p m = true := by revert hp; cases p m <;> simp
  have hmem : m.id ∈ (s.messages.filter p).map (fun m => m.id) :=
    List.mem_map.mpr ⟨m, List.mem_filter.mpr ⟨hm, hp'⟩, rfl⟩
  have hclosed := mem_closeDead s.messages s.messages.length
    ((s.messages.filter p).map (fun m => m.id)) m.id hmem
  simp [hclosed] at hcontains

/-- A store holding no row that references the removed actor is a fixed
point of the cleanup coordinator. -/
theorem cleanup_user_data_fixed (d : Store) (u : Nat)
    (hmsg : ∀ m ∈ d.messages, (m.sender == u) = false ∧ (m.receiver == u) = false)
    (hnot : ∀ n ∈ d.notifications, (n.user == u) = false)
    (hhist : ∀ h ∈ d.histories, (h.edited_by == some u) = false) :
    cleanup_user_data d u = d := by
  have h1 : d.notifications.filter (fun n => !(n.user == u)) = d.notifications :=
    List.filter_eq_self.mpr (fun n hn => by simp [hnot n hn])
  have h2 : d.histories.filter (fun h => !(h.edited_by == some u)) = d.histories :=
    List.filter_eq_self.mpr (fun h hh => by simp [hhist h hh])
  simp only [cleanup_user_data,
    cascadeDeleteMessages_id d _ (fun m hm => (hmsg m hm).1),
    cascadeDeleteMessages_id d _ (fun m hm => (hmsg m hm).2), h1, h2]

/-- Claim C8: the cleanup coordinator is idempotent — a second run for the same
removed actor, or a run after the full removal cascade has already
happened, finds nothing left to delete and returns the store unchanged
(it is total, so it cannot error). -/
theorem C8_cleanup_idempotent (s : Store) (u : Nat) :
    cleanup_user_data (cleanup_user_data s u) u = cleanup_user_data s u ∧
    cleanup_user_data (delete_user s u) u = delete_user s u := by
  constructor
  · apply cleanup_user_data_fixed
    · intro m hm
      have hm' : m ∈ (cascadeDeleteMessages
          (cascadeDeleteMessages s (fun m => m.sender == u))
          (fun m => m.receiver == u)).messages := hm
      exact ⟨cascade_survivor_not_p _ _ m (mem_of_mem_cascade _ _ m hm'),
        cascade_survivor_not_p _ _ m hm'⟩
    · intro n hn
      have hn' := (List.mem_filter.mp hn).2
      simpa using hn'
    · intro h hh
      have hh' := (List.mem_filter.mp hh).2
      simpa using hh'
  · apply cleanup_user_data_fixed
    · intro m hm
      have hm' : m ∈ (cascadeDeleteMessages (cleanup_user_data s u)
          (fun m => m.sender == u || m.receiver == u)).messages := hm
      have := cascade_survivor_not_p _ _ m hm'
      constructor
      · revert this; cases hs : m.sender == u <;> simp
      · revert this; cases hr : m.receiver == u <;> simp
    · intro n hn
      have hn' := (List.mem_filter.mp hn).2
      simpa using hn'
    · intro h hh
      rcases List.mem_map.mp hh with ⟨h0, _, hmap⟩
      by_cases h0u : (h0.edited_by == some u) = true
      · rw [if_pos h0u] at hmap
        rw [← hmap]
        rfl
      · rw [if_neg h0u] at hmap
        rw [← hmap]
        simpa using h0u

/-- Setting an already-set `read` flag changes nothing. -/
theorem Msg_set_read_self (a : Msg) (h : a.read = true) :
    ({ a with read := true } : Msg) = a := by
  rcases a with ⟨i, se, re, co, ts, ed, rd, pa⟩
  simp only [Msg.mk.injEq]
  simp_all

/-- With unique primary keys, `find?` on an id returns any member bearing
that id. -/
theorem find?_of_mem_unique (l : List Msg) (mid : Nat) (m : Msg)
    (hids : (l.map (fun x => x.id)).Nodup) (hm : m ∈ l) (hid : m.id = mid) :
    l.find? (fun x => x.id == mid) = some m := by
  induction l with
  | nil => cases hm
  | cons x xs ih =>
    simp only [List.map_cons, List.nodup_cons] at hids
    rcases List.mem_cons.mp hm with rfl | hm'
    · rw [List.find?_cons_of_pos _ (by simp [hid])]
    · by_cases hx : (x.id == mid) = true
      · exfalso
        have hmem : m.id ∈ xs.map (fun x => x.id) := List.mem_map.mpr ⟨m, hm', rfl⟩
        have hxm : x.id = mid := by simpa using hx
        rw [hid, ← hxm] at hmem
        exact hids.1 hmem
      · rw [List.find?_cons_of_neg _ (by simpa using hx)]
        exact ih hids.2 hm'

/-- Running `mark_as_read` when no row bears the id is a no-op. -/
theorem mark_as_read_not_found (s : Store) (mid now : Nat)
    (h : s.messages.find? (fun m => m.id == mid) = none) :
    mark_as_read s mid now = s := by
  simp [mark_as_read, h]

/-- Running `mark_as_read` on an already-read row is a no-op (`if not self.read`). -/
theorem mark_as_read_found_true (s : Store) (mid now : Nat) (m : Msg)
    (h : s.messages.find? (fun m => m.id == mid) = some m) (hr : m.read = true) :
    mark_as_read s mid now = s := by
  simp [mark_as_read, h, hr]

/-- Running `mark_as_read` on an unread row: only the `read` column of rows bearing
the id is written; no history row is produced (the instance content equals
the stored content) and no notification (post_save sees `created=False`). -/
theorem mark_as_read_found_false (s : Store) (mid now : Nat) (m : Msg)
    (h : s.messages.find? (fun m => m.id == mid) = some m) (hr : m.read = false) :
    mark_as_read s mid now =
      { s with messages := s.messages.map (fun x =>
          if x.id == mid then { x with read := true } else x) } := by
  have hmid : m.id = mid := by simpa using List.find?_some h
  have hfind2 : s.messages.find? (fun x => x.id == m.id) = some m := by
    rw [hmid]; exact h
  simp only [mark_as_read, h, hr, log_message_edit]
  simp [hfind2, create_notification_on_message]

/-- Under unique primary keys, `mark_as_read` always equals the pure
read-flag rewrite of the message table. -/
theorem mark_as_read_spec (s : Store) (mid now : Nat)
    (hids : (s.messages.map (fun m => m.id)).Nodup) :
    mark_as_read s mid now =
      { s with messages := s.messages.map (fun x =>
          if x.id == mid then { x with read := true } else x) } := by
  cases h : s.messages.find? (fun m => m.id == mid) with
  | none =>
    rw [mark_as_read_not_found s mid now h]
    have hmap : s.messages.map (fun x =>
        if x.id == mid then { x with read := true } else x) = s.messages :=
      map_id_of_mem _ _ (fun a ha => by
        rw [if_neg]
        simpa using List.find?_eq_none.mp h a ha)
    rw [hmap]
  | some m =>
    cases hr : m.read with
    | false => exact mark_as_read_found_false s mid now m h hr
    | true =>
      rw [mark_as_read_found_true s mid now m h hr]
      have hm : m ∈ s.messages := List.mem_of_find?_eq_some h
      have hmid : m.id = mid := by simpa using List.find?_some h
      have hmap : s.messages.map (fun x =>
          if x.id == mid then { x with read := true } else x) = s.messages :=
        map_id_of_mem _ _ (fun a ha => by
          by_cases hx : (a.id == mid) = true
          · rw [if_pos hx]
            have ham : a = m := by
              have hfa := find?_of_mem_unique s.messages mid a hids ha (by simpa using hx)
              rw [h] at hfa
              exact ((Option.some.injEq _ _).mp hfa).symm
            exact Msg_set_read_self a (ham ▸ hr)
          · rw [if_neg hx])
      rw [hmap]

/-- Claim C9 counterexample: message 1 of `exEdited` exists and its receiver is
actor 2, yet actor 3's attempt to mark it read surfaces `NotFound`, not the
`Forbidden` the claim requires — the view's lookup is filtered by receiver,
so a non-receiver is indistinguishable from a missing message. -/
theorem C9_nonreceiver_gets_NotFound :
    exEdited.messages.all (fun m => m.receiver != 3) = true ∧
    (exEdited.messages.find? (fun x => x.id == 1)).isSome = true ∧
    mark_message_read exEdited 3 1 13 = Except.error Err.NotFound ∧
    mark_message_read exEdited 3 1 13 ≠ Except.error Err.Forbidden := by
  refine ⟨by decide, by decide, by rfl, fun h => ?_⟩
  exact absurd ((Except.error.injEq _ _).mp h) (by decide)

/-- Claim C9 (amended): `mark_message_read` flips the `read` flag false→true
when the caller is the receiver, is a no-op when the flag is already true,
and fails with `NotFound` — not `Forbidden` — when no stored message bears
the id with the caller as receiver. -/
theorem C9_mark_message_read (s : Store) (actor mid now : Nat)
    (hids : (s.messages.map (fun m => m.id)).Nodup) :
    (∀ m, s.messages.find? (fun x => x.id == mid && x.receiver == actor) = some m →
      m.read = false →
      mark_message_read s actor mid now = Except.ok
        { s with messages := s.messages.map (fun x =>
            if x.id == mid then { x with read := true } else x) }) ∧
    (∀ m, s.messages.find? (fun x => x.id == mid && x.receiver == actor) = some m →
      m.read = true →
      mark_message_read s actor mid now = Except.ok s) ∧
    ((∀ x ∈ s.messages, ¬(x.id = mid ∧ x.receiver = actor)) →
      mark_message_read s actor mid now = Except.error Err.NotFound) := by
  refine ⟨?_, ?_, ?_⟩
  · intro m hfind hr
    have hm : m ∈ s.messages := List.mem_of_find?_eq_some hfind
    have hp := List.find?_some hfind
    simp only [Bool.and_eq_true, beq_iff_eq] at hp
    have hfind1 : s.messages.find? (fun x => x.id == mid) = some m :=
      find?_of_mem_unique s.messages mid m hids hm hp.1
    simp only [mark_message_read, hfind]
    rw [mark_as_read_found_false s mid now m hfind1 hr]
  · intro m hfind hr
    have hm : m ∈ s.messages := List.mem_of_find?_eq_some hfind
    have hp := List.find?_some hfind
    simp only [Bool.and_eq_true, beq_iff_eq] at hp
    have hfind1 : s.messages.find? (fun x => x.id == mid) = some m :=
      find?_of_mem_unique s.messages mid m hids hm hp.1
    simp only [mark_message_read, hfind]
    rw [mark_as_read_found_true s mid now m hfind1 hr]
  · intro hno
    have hnone : s.messages.find?
        (fun x => x.id == mid && x.receiver == actor) = none :=
      List.find?_eq_none.mpr (fun x hx hpx => by
        simp only [Bool.and_eq_true, beq_iff_eq] at hpx
        exact hno x hx hpx)
    simp [mark_message_read, hnone]

/-- Concrete instantiation of `C9_mark_message_read`: the receiver (actor 2)
marks unread message 1 of `exEdited`. -/
theorem C9_mark_message_read_witness :
    exEdited.messages.find? (fun x => x.id == 1 && x.receiver == 2) =
      some ⟨1, 1, 2, "hi", 10, true, false, none⟩ ∧
    mark_message_read exEdited 2 1 13 = Except.ok
      { exEdited with messages := exEdited.messages.map (fun x =>
          if x.id == 1 then { x with read := true } else x) } :=
  ⟨by rfl,
   (C9_mark_message_read exEdited 2 1 13 (by decide)).1
     ⟨1, 1, 2, "hi", 10, true, false, none⟩ (by rfl) (by rfl)⟩

/-- Claim C10: marking a message read rewrites only the `read` flag of the rows
bearing that id — every other field of the message, every other message, and
the notification and history tables are untouched. -/
theorem C10_mark_read_frame (s : Store) (mid now : Nat)
    (hids : (s.messages.map (fun m => m.id)).Nodup) :
    (mark_as_read s mid now).notifications = s.notifications ∧
    (mark_as_read s mid now).histories = s.histories ∧
    (mark_as_read s mid now).messages =
      s.messages.map (fun x => if x.id == mid then { x with read := true } else x) := by
  rw [mark_as_read_spec s mid now hids]
  exact ⟨rfl, rfl, rfl⟩

/-- Concrete instantiation of `C10_mark_read_frame` at `exEdited`. -/
theorem C10_mark_read_frame_witness :
    (exEdited.messages.map (fun m => m.id)).Nodup ∧
    (mark_as_read exEdited 1 13).notifications = exEdited.notifications ∧
    (mark_as_read exEdited 1 13).histories = exEdited.histories :=
  ⟨by decide,
   (C10_mark_read_frame exEdited 1 13 (by decide)).1,
   (C10_mark_read_frame exEdited 1 13 (by decide)).2.1⟩
